import Mathlib

/-!
Verification development for the PLL-CargoFlow pricing core
(`src/services/calculationService.ts` together with the `CargoProfile` /
`PnLBucket` data model).

Modelling conventions:

* JavaScript numbers are idealized as exact rationals (`ℚ`).  A field whose
  value is `0` plays the role of an absent/falsy field, exactly as the source
  treats `0`, `undefined` and `null` numeric fields interchangeably through
  JS truthiness tests.  Strings are falsy exactly when empty.
* JS objects used as string-keyed records are modelled as insertion-ordered
  association lists; `Object.keys` is the list of first components, spread
  (`{...a, ...b}`) updates in place or appends, as JS does.
* Division by zero makes arithmetic evaluation fail (the source produces an
  IEEE non-finite value there, which its `isFinite` guard turns into `null`).
* The two places where the source depends on the host `Date` implementation
  (the non-ISO fallback of `normalizeDateToMonth`, and `estimatePricingDate`,
  which mutates a local-time `Date`) are modelled as explicit environment
  parameters, so every theorem quantifies over the host's date behaviour.
-/

namespace CargoFlow

/-- `PnLBucket` enum from the data model (`types.ts`). -/
inductive PnLBucket where
  | Realized
  | Unrealized
  | Unspecified
deriving DecidableEq, Repr

/-- The `CargoProfile` record.  Fields are those of the exported interface,
plus `pricingEndDate` and `volumeUnit`, which `calculationService.ts` reads
and writes on profiles.  Numeric fields are `ℚ` with `0` meaning unset;
string fields use `""` for unset. -/
structure CargoProfile where
  id : String
  source : String
  strategyName : String
  buyer : String
  optimized : Bool
  deliveryDate : String
  deliveryMonth : String
  deliveredVolume : ℚ
  sellFormula : String
  absoluteSellPrice : ℚ
  salesRevenue : ℚ
  loadedVolume : ℚ
  loadingDate : String
  loadingMonth : String
  buyFormula : String
  absoluteBuyPrice : ℚ
  incoterms : String
  src : String
  pnlBucket : PnLBucket
  reconciledPurchaseCost : ℚ
  finalSalesRevenue : ℚ
  reconciledSalesRevenue : ℚ
  finalTotalCost : ℚ
  finalPhysicalPnL : ℚ
  totalHedgingPnL : ℚ
  finalTotalPnL : ℚ
  pricingEndDate : String
  volumeUnit : String
deriving DecidableEq, Repr

attribute [ext] CargoProfile

/-! ### JS objects as insertion-ordered association lists -/

/-- A JS object with values of type `β`: insertion-ordered key/value list. -/
abbrev Obj (β : Type) := List (String × β)

/-- `o[k] = v` on a JS object: update in place if the key exists, else append
(JS objects keep first-insertion key order). -/
def objSet {β : Type} (o : Obj β) (k : String) (v : β) : Obj β :=
  if o.any (fun kv => kv.1 = k) then
    o.map (fun kv => if kv.1 = k then (k, v) else kv)
  else
    o ++ [(k, v)]

/-- `{...a, ...b}`: the keys of `a` in order with values overridden by `b`,
followed by the new keys of `b` in `b`'s order. -/
def objMerge {β : Type} (a b : Obj β) : Obj β :=
  b.foldl (fun acc kv => objSet acc kv.1 kv.2) a

/-! ### Market data store (`calculationService.ts` lines 4-92) -/

/-- `LIVE_MARKET_DATA`: the spot prices as initialized in the source. -/
def LIVE_MARKET_DATA : Obj ℚ :=
  [("BRIPE", 78.50), ("JCC", 81.00), ("Dated Brent", 79.20), ("HH", 3.10),
   ("NBP", 11.50), ("JKM", 13.50), ("TTF", 12.00), ("AECO", 1.85),
   ("STN 2", 2.10)]

/-- `ForwardCurveRow`: one month of a forward-curve snapshot. -/
structure ForwardCurveRow where
  month : String
  prices : Obj ℚ
deriving DecidableEq, Repr

/-- `CURVE_HISTORY`: map of curve "as of" date to curve snapshot. -/
abbrev CurveHistory := Obj (List ForwardCurveRow)

/-- `updateMarketData`: `LIVE_MARKET_DATA = {...LIVE_MARKET_DATA, ...newData}`. -/
def updateMarketData (live newData : Obj ℚ) : Obj ℚ :=
  objMerge live newData

/-- `saveForwardCurve`: `CURVE_HISTORY[date] = newCurve` (the `localStorage`
persistence is a side effect outside the pure model). -/
def saveForwardCurve (history : CurveHistory) (date : String)
    (newCurve : List ForwardCurveRow) : CurveHistory :=
  objSet history date newCurve

/-- Lexicographic comparison of character lists by code unit — the string
order used by JS `Array.prototype.sort` without a comparator (all keys here
are ASCII, where code-unit and code-point order agree). -/
def charListLe : List Char → List Char → Bool
  | [], _ => true
  | _ :: _, [] => false
  | a :: as, b :: bs =>
    if a < b then true else if b < a then false else charListLe as bs

/-- JS default string comparison, on whole strings. -/
def jsStrLe (a b : String) : Bool :=
  charListLe a.toList b.toList

/-- `getForwardCurve`: the curve for a given "as of" date if present, else the
snapshot under the greatest date key (`Object.keys(...).sort().reverse()[0]`). -/
def getForwardCurve (history : CurveHistory) (asOfDate : Option String) :
    List ForwardCurveRow :=
  let viaAsOf : Option (List ForwardCurveRow) :=
    match asOfDate with
    | some d => if d = "" then none else List.lookup d history
    | none => none
  match viaAsOf with
  | some c => c
  | none =>
    match (List.insertionSort (fun a b : String => jsStrLe a b = true)
            (history.map Prod.fst)).reverse with
    | [] => []
    | d :: _ => (List.lookup d history).getD []

/-- `INDEX_ALIASES` from the source, in declaration order. -/
def INDEX_ALIASES : Obj String :=
  [("henry hub", "HH"), ("nymex hh", "HH"), ("us gas", "HH"),
   ("japan korea marker", "JKM"), ("asian spot", "JKM"),
   ("dutch ttf", "TTF"), ("title transfer facility", "TTF"),
   ("eur gas", "TTF"), ("national balancing point", "NBP"),
   ("uk gas", "NBP"), ("japan crude cocktail", "JCC"),
   ("brent", "Dated Brent"), ("dated brent", "Dated Brent"),
   ("ice brent", "BRIPE"), ("stn2", "STN 2"), ("stn 2", "STN 2"),
   ("station 2", "STN 2")]

/-! ### Character classes and scanning primitives

The source performs its normalization with JS regular expressions over
short ASCII strings.  Each regex used is a fixed pattern; we implement each
as a left-to-right scan over `List Char`, exactly mirroring the global
`String.replace` semantics (leftmost, non-overlapping, single pass). -/

/-- JS `toLowerCase` restricted to ASCII (the only characters that occur). -/
def jsToLower (c : Char) : Char :=
  if 'A' ≤ c ∧ c ≤ 'Z' then Char.ofNat (c.toNat + 32) else c

/-- JS regex `\w`: `[A-Za-z0-9_]`. -/
def isWordChar (c : Char) : Bool :=
  c.isAlphanum || c = '_'

/-- JS regex `\s` (the whitespace characters relevant to this codebase). -/
def isSpaceC (c : Char) : Bool :=
  c = ' ' || c = '\t' || c = '\n' || c = '\r' || c = '\x0b' || c = '\x0c'

/-- ASCII letter, as matched by `[a-z]` under the `i` flag. -/
def isAlphaI (c : Char) : Bool :=
  ('a' ≤ c ∧ c ≤ 'z') || ('A' ≤ c ∧ c ≤ 'Z')

/-- One of the four arithmetic operators. -/
def isOpChar (c : Char) : Bool :=
  c = '+' || c = '-' || c = '*' || c = '/'

/-- Case-insensitive literal prefix match; returns the rest of the input
after the pattern. -/
def matchCIRest : List Char → List Char → Option (List Char)
  | [], s => some s
  | _ :: _, [] => none
  | p :: ps, c :: cs =>
    if jsToLower p = jsToLower c then matchCIRest ps cs else none

/-- A matcher consumes a positive number of characters at the current
position and produces replacement text, or declines.  It also sees the
previous input character (for `\b` word boundaries). -/
abbrev Matcher := Option Char → List Char → Option (List Char × Nat)

/-- Fuelled generic scan-replace: at each position, either the matcher
consumes `n ≥ 1` characters and emits its replacement, or one character is
copied to the output.  Fuel `s.length` always suffices since every step
consumes at least one character. -/
def scanRF (m : Matcher) : Nat → Option Char → List Char → List Char
  | 0, _, s => s
  | _ + 1, _, [] => []
  | fuel + 1, prev, c :: cs =>
    match m prev (c :: cs) with
    | some (out, n) =>
      if n = 0 then c :: scanRF m fuel (some c) cs
      else out ++ scanRF m fuel (((c :: cs).take n).getLast?)
             (List.drop n (c :: cs))
    | none => c :: scanRF m fuel (some c) cs

/-- Run a matcher over a whole string (JS `replace` with the `g` flag). -/
def scanR (m : Matcher) (s : List Char) : List Char :=
  scanRF m s.length none s

/-- Matcher for `\bPAT\b` case-insensitive, `PAT` a literal that starts and
ends with word characters (true of every alias, index code and word operator
in the source). -/
def wordCIMatcher (pat rep : List Char) : Matcher := fun prev s =>
  let boundaryBefore := match prev with
    | none => true
    | some pc => !(isWordChar pc)
  if boundaryBefore then
    match matchCIRest pat s with
    | some rest =>
      let boundaryAfter := match rest with
        | [] => true
        | d :: _ => !(isWordChar d)
      if boundaryAfter then some (rep, pat.length) else none
    | none => none
  else none

/-- Matcher for a case-sensitive literal (no word boundaries). -/
def literalMatcher (pat rep : List Char) : Matcher := fun _ s =>
  if pat ≠ [] ∧ pat.isPrefixOf s then some (rep, pat.length) else none

/-- `\b`-replace `pat` by `rep`, case-insensitively, over a string. -/
def replaceWordCI (pat rep : String) (s : List Char) : List Char :=
  scanR (wordCIMatcher pat.toList rep.toList) s

/-- Replace a literal substring globally (single left-to-right pass). -/
def replaceLiteral (pat rep : String) (s : List Char) : List Char :=
  scanR (literalMatcher pat.toList rep.toList) s

/-! ### Decimal parsing and JS number formatting -/

/-- Numeric value of a list of decimal digits. -/
def natOfDigits (ds : List Char) : ℕ :=
  ds.foldl (fun a c => a * 10 + (c.toNat - 48)) 0

/-- Rational value of `ds.fs` (either part may be empty). -/
def decToRat (ds fs : List Char) : ℚ :=
  (natOfDigits ds : ℚ) + (natOfDigits fs : ℚ) / (10 : ℚ) ^ fs.length

/-- Least `k ≤ 30` such that `q·10^k` is an integer, if any. -/
def ratDecExp (q : ℚ) : Option Nat :=
  (List.range 31).find? (fun k => (q * (10 : ℚ) ^ k).den = 1)

/-- Pad a digit string on the left with zeros to length `k`. -/
def padZeros (k : Nat) (s : String) : String :=
  String.mk (List.replicate (k - s.length) '0') ++ s

/-- Shortest decimal form of a nonnegative decimal-valued rational — the
string JS `Number.prototype.toString` produces for such values.  (Every
value formatted by the pipeline is a decimal-valued rational; the final arm
is unreachable for those.) -/
def fmtNonneg (q : ℚ) : String :=
  match ratDecExp q with
  | some 0 => toString q.num
  | some (k + 1) =>
    let n := (q * (10 : ℚ) ^ (k + 1)).num.toNat
    toString (n / 10 ^ (k + 1)) ++ "." ++
      padZeros (k + 1) (toString (n % 10 ^ (k + 1)))
  | none => toString q.num ++ "/" ++ toString q.den

/-- JS `toString` of a (decimal-valued) rational. -/
def fmtRat (q : ℚ) : String :=
  if q < 0 then "-" ++ fmtNonneg (-q) else fmtNonneg q

/-! ### The percentage and jargon matchers (source lines 264-302) -/

/-- Parse `\s*(\d+(\.\d+)?)` at the head of the input.  Returns the value,
the number of characters consumed, and the rest. -/
def parseNumAfterWs (s : List Char) : Option (ℚ × Nat × List Char) :=
  let sp := s.takeWhile isSpaceC
  let r1 := s.dropWhile isSpaceC
  let ds := r1.takeWhile Char.isDigit
  let r2 := r1.dropWhile Char.isDigit
  if ds = [] then none
  else
    match r2 with
    | '.' :: r2' =>
      let fs := r2'.takeWhile Char.isDigit
      if fs = [] then some (decToRat ds [], sp.length + ds.length, r2)
      else some (decToRat ds fs, sp.length + ds.length + 1 + fs.length,
                 r2'.dropWhile Char.isDigit)
    | _ => some (decToRat ds [], sp.length + ds.length, r2)

/-- Matcher for `/\+\s*(\d+(\.\d+)?)%(\s|$)/g` with replacement
`* (1 + v) ` where `v` is the parsed number divided by 100. -/
def plusPercentMatcher : Matcher := fun _ s =>
  match s with
  | '+' :: rest =>
    match parseNumAfterWs rest with
    | some (v, n, r) =>
      match r with
      | '%' :: r2 =>
        let out := ("* (1 + " ++ fmtRat (v / 100) ++ ") ").toList
        match r2 with
        | [] => some (out, 1 + n + 1)
        | w :: _ => if isSpaceC w then some (out, 1 + n + 2) else none
      | _ => none
    | none => none
  | _ => none

/-- Matcher for `/\-\s*(\d+(\.\d+)?)%(\s|$)/g` with replacement
`* (1 - v) `. -/
def minusPercentMatcher : Matcher := fun _ s =>
  match s with
  | '-' :: rest =>
    match parseNumAfterWs rest with
    | some (v, n, r) =>
      match r with
      | '%' :: r2 =>
        let out := ("* (1 - " ++ fmtRat (v / 100) ++ ") ").toList
        match r2 with
        | [] => some (out, 1 + n + 1)
        | w :: _ => if isSpaceC w then some (out, 1 + n + 2) else none
      | _ => none
    | none => none
  | _ => none

/-- Matcher for `/(\d+(\.\d+)?)%/g` with replacement `v *`. -/
def barePercentMatcher : Matcher := fun _ s =>
  match parseNumAfterWs s with
  | some (v, n, r) =>
    if s.takeWhile isSpaceC = [] then
      match r with
      | '%' :: _ => some ((fmtRat (v / 100) ++ " *").toList, n + 1)
      | _ => none
    else none
  | none => none

/-- Matcher for `/\([^)]*[a-z][^)]*\)/gi`: a parenthesized group with no
nested `)` that still contains a letter; removed entirely. -/
def parenAlphaMatcher : Matcher := fun _ s =>
  match s with
  | '(' :: rest =>
    let body := rest.takeWhile (fun c => c ≠ ')')
    match rest.dropWhile (fun c => c ≠ ')') with
    | ')' :: _ =>
      if body.any isAlphaI then some ([], body.length + 2) else none
    | _ => none
  | _ => none

/-- `/[\+\-\*\/]\s*$/`: drop the last operator if only whitespace follows it
(at most one match is possible since the match must end the string). -/
def trimTrailingOp (s : List Char) : List Char :=
  let r := s.reverse
  match r.dropWhile isSpaceC with
  | c :: rest => if isOpChar c then rest.reverse else s
  | [] => s

/-- `/^\s*[\+\-\*\/]/`: drop leading whitespace plus one leading operator. -/
def trimLeadingOp (s : List Char) : List Char :=
  match s.dropWhile isSpaceC with
  | c :: rest => if isOpChar c then rest else s
  | [] => s

/-- The character class of the final validation regex
`^[\d\.\s\+\-\*\/\(\)]+$`. -/
def validChar (c : Char) : Bool :=
  c.isDigit || c = '.' || isSpaceC c || isOpChar c || c = '(' || c = ')'

/-! ### Arithmetic evaluation of the cleaned expression

The source hands the cleaned string to `new Function("return " + parsed)()`.
Post-validation the string contains only digits, `.`, whitespace, the four
operators and parentheses, so the executed program is a JS arithmetic
expression: standard precedence, left association, unary `+`/`-`.  A syntax
error, or a non-finite result, yields `null`; we model both as `none`
(division by zero fails immediately — see the header note). -/

inductive Tok where
  | num (q : ℚ)
  | plus
  | minus
  | star
  | slash
  | lpar
  | rpar
deriving DecidableEq, Repr

/-- Fuelled tokenizer for the validated character set.  Fuel `s.length + 1`
always suffices since every step consumes at least one character. -/
def tokenizeF : Nat → List Char → Option (List Tok)
  | 0, _ => none
  | _ + 1, [] => some []
  | fuel + 1, c :: cs =>
    if isSpaceC c then tokenizeF fuel cs
    else if c = '+' then (tokenizeF fuel cs).map (Tok.plus :: ·)
    else if c = '-' then (tokenizeF fuel cs).map (Tok.minus :: ·)
    else if c = '*' then (tokenizeF fuel cs).map (Tok.star :: ·)
    else if c = '/' then (tokenizeF fuel cs).map (Tok.slash :: ·)
    else if c = '(' then (tokenizeF fuel cs).map (Tok.lpar :: ·)
    else if c = ')' then (tokenizeF fuel cs).map (Tok.rpar :: ·)
    else if c.isDigit then
      let ds := (c :: cs).takeWhile Char.isDigit
      match (c :: cs).dropWhile Char.isDigit with
      | '.' :: r2 =>
        let fs := r2.takeWhile Char.isDigit
        (tokenizeF fuel (r2.dropWhile Char.isDigit)).map
          (Tok.num (decToRat ds fs) :: ·)
      | r1 => (tokenizeF fuel r1).map (Tok.num (decToRat ds []) :: ·)
    else if c = '.' then
      let fs := cs.takeWhile Char.isDigit
      if fs = [] then none
      else (tokenizeF fuel (cs.dropWhile Char.isDigit)).map
             (Tok.num (decToRat [] fs) :: ·)
    else none

def tokenize (s : List Char) : Option (List Tok) :=
  tokenizeF (s.length + 1) s

mutual
/-- `Expr := Term (('+'|'-') Term)*` -/
def parseAddSub : Nat → List Tok → Option (ℚ × List Tok)
  | 0, _ => none
  | fuel + 1, ts =>
    match parseMulDiv fuel ts with
    | some (v, rest) => parseAddSubLoop fuel v rest
    | none => none

def parseAddSubLoop : Nat → ℚ → List Tok → Option (ℚ × List Tok)
  | 0, _, _ => none
  | fuel + 1, acc, Tok.plus :: ts =>
    match parseMulDiv fuel ts with
    | some (v, rest) => parseAddSubLoop fuel (acc + v) rest
    | none => none
  | fuel + 1, acc, Tok.minus :: ts =>
    match parseMulDiv fuel ts with
    | some (v, rest) => parseAddSubLoop fuel (acc - v) rest
    | none => none
  | _ + 1, acc, ts => some (acc, ts)

/-- `Term := Unary (('*'|'/') Unary)*`; division by zero fails. -/
def parseMulDiv : Nat → List Tok → Option (ℚ × List Tok)
  | 0, _ => none
  | fuel + 1, ts =>
    match parseUnary fuel ts with
    | some (v, rest) => parseMulDivLoop fuel v rest
    | none => none

def parseMulDivLoop : Nat → ℚ → List Tok → Option (ℚ × List Tok)
  | 0, _, _ => none
  | fuel + 1, acc, Tok.star :: ts =>
    match parseUnary fuel ts with
    | some (v, rest) => parseMulDivLoop fuel (acc * v) rest
    | none => none
  | fuel + 1, acc, Tok.slash :: ts =>
    match parseUnary fuel ts with
    | some (v, rest) =>
      if v = 0 then none else parseMulDivLoop fuel (acc / v) rest
    | none => none
  | _ + 1, acc, ts => some (acc, ts)

/-- `Unary := ('+'|'-')* Primary` -/
def parseUnary : Nat → List Tok → Option (ℚ × List Tok)
  | 0, _ => none
  | fuel + 1, Tok.plus :: ts => parseUnary fuel ts
  | fuel + 1, Tok.minus :: ts =>
    (parseUnary fuel ts).map (fun vr => (-vr.1, vr.2))
  | fuel + 1, ts => parsePrimary fuel ts

/-- `Primary := number | '(' Expr ')'` -/
def parsePrimary : Nat → List Tok → Option (ℚ × List Tok)
  | 0, _ => none
  | _ + 1, Tok.num q :: ts => some (q, ts)
  | fuel + 1, Tok.lpar :: ts =>
    match parseAddSub fuel ts with
    | some (v, Tok.rpar :: rest) => some (v, rest)
    | _ => none
  | _ + 1, _ => none
end

/-- Evaluate a token list as a complete JS arithmetic expression. -/
def evalTokens (ts : List Tok) : Option ℚ :=
  match parseAddSub (4 * ts.length + 8) ts with
  | some (v, []) => some v
  | _ => none

/-- JS `Number(x.toFixed(3))`: round to 3 decimals, ties to the larger
candidate. -/
def round3 (x : ℚ) : ℚ :=
  (⌊x * 1000 + 1 / 2⌋ : ℚ) / 1000

/-! ### `normalizeDateToMonth` (source lines 127-140) -/

/-- `normalizeDateToMonth`: if the string starts with `\d{4}-\d{2}`, slice
that prefix directly; otherwise fall back to host `Date` parsing with UTC
fields, modelled by the explicit `fallbackParse` parameter. -/
def normalizeDateToMonth (fallbackParse : String → String)
    (dateStr : String) : String :=
  if dateStr = "" then ""
  else
    match dateStr.toList with
    | y1 :: y2 :: y3 :: y4 :: h :: m1 :: m2 :: _ =>
      if y1.isDigit ∧ y2.isDigit ∧ y3.isDigit ∧ y4.isDigit ∧ h = '-'
          ∧ m1.isDigit ∧ m2.isDigit then
        String.mk [y1, y2, y3, y4] ++ "-" ++ String.mk [m1, m2]
      else fallbackParse dateStr
    | _ => fallbackParse dateStr

/-! ### `evaluateFormula` (source lines 222-315) -/

/-- Stable sort, longest string first: `arr.sort((a, b) => b.length - a.length)`. -/
def insertByLenDesc (x : String) : List String → List String
  | [] => [x]
  | y :: ys =>
    if y.length < x.length then x :: y :: ys else y :: insertByLenDesc x ys

def sortByLenDesc (l : List String) : List String :=
  l.foldl (fun acc x => insertByLenDesc x acc) []

/-- Steps 2-10 of `evaluateFormula` (normalization passes and arithmetic
evaluation) applied to the lowercased formula against a fixed pricing
context. -/
def normalizeAndEval (pricingContext : Obj ℚ) (lowered : List Char) :
    Option ℚ :=
  let p1 := lowered.map (fun c => if c = '–' then '-' else c)
  let p2 := p1.filter (fun c => ¬(c = '£' ∨ c = '$' ∨ c = '€' ∨ c = '¥'))
  let p3 := p2.filter (fun c => c ≠ ',')
  let p4 := replaceWordCI "plus" "+" p3
  let p5 := replaceWordCI "minus" "-" p4
  let aliasKeys := sortByLenDesc (INDEX_ALIASES.map Prod.fst)
  let p6 := aliasKeys.foldl
    (fun s ak =>
      replaceWordCI ak ((List.lookup ak INDEX_ALIASES).getD "") s) p5
  let p7 := scanR plusPercentMatcher p6
  let p8 := scanR minusPercentMatcher p7
  let p9 := scanR barePercentMatcher p8
  let p10 := replaceLiteral "+/-" "+" p9
  let keys := sortByLenDesc (pricingContext.map Prod.fst)
  let p11 := keys.foldl
    (fun s key =>
      replaceWordCI key (fmtRat ((List.lookup key pricingContext).getD 0)) s)
    p10
  let p12 := scanR parenAlphaMatcher p11
  let p13 := p12.filter (fun c => ¬ isAlphaI c)
  let p14 := trimTrailingOp p13
  let p15 := trimLeadingOp p14
  let p16 := replaceLiteral "++" "+" p15
  let p17 := replaceLiteral "--" "+" p16
  let p18 := replaceLiteral "+-" "-" p17
  let p19 := replaceLiteral "-+" "-" p18
  if p19 ≠ [] ∧ p19.all validChar then
    match tokenize p19 with
    | some ts =>
      match evalTokens ts with
      | some r => some (round3 r)
      | none => none
    | none => none
  else none

/-- `evaluateFormula` against an explicitly supplied latest curve snapshot
(the body of the source function from line 235 on, with `latestCurve`
abstracted). -/
def evaluateFormulaAgainst (spot : Obj ℚ) (latestCurve : List ForwardCurveRow)
    (fallbackParse : String → String) (formula referenceDate : String) :
    Option ℚ :=
  if formula.toList.all isSpaceC then none
  else
    let pricingContext : Obj ℚ :=
      if referenceDate ≠ "" then
        if latestCurve ≠ [] then
          match latestCurve.find? (fun r =>
              r.month = normalizeDateToMonth fallbackParse referenceDate) with
          | some forwardRow => objMerge spot forwardRow.prices
          | none => spot
        else spot
      else spot
    normalizeAndEval pricingContext (formula.toList.map jsToLower)

/-- `evaluateFormula`: builds the pricing context from the spot store and the
latest forward-curve snapshot (`getForwardCurve()` with no argument, source
line 233), then normalizes and evaluates.  An absent `referenceDate` is the
empty string (JS falsiness). -/
def evaluateFormula (spot : Obj ℚ) (history : CurveHistory)
    (fallbackParse : String → String) (formula referenceDate : String) :
    Option ℚ :=
  evaluateFormulaAgainst spot (getForwardCurve history none) fallbackParse
    formula referenceDate

/-! ### `recalculateProfile` (source lines 321-383)

The source mutates a copy of the profile field by field; each `let` below is
the final value of the corresponding field, computed in the source's order
and reading exactly the fields the source reads at that point.
`estimatePricingDate` (source lines 145-169) constructs and mutates a
local-time JS `Date`, so its result depends on the host time zone; it is
modelled by the explicit `est` parameter (taking the formula and the
delivery date). -/

def recalculateProfile (spot : Obj ℚ) (history : CurveHistory)
    (fallbackParse : String → String) (est : String → String → String)
    (profile : CargoProfile) (forceCalc : Bool) : CargoProfile :=
  let isRealized := profile.pnlBucket = PnLBucket.Realized
  let doCalc := ¬ isRealized ∨ forceCalc = true
  let absoluteSellPrice :=
    if doCalc ∧ profile.sellFormula ≠ "" then
      (evaluateFormula spot history fallbackParse profile.sellFormula
        profile.deliveryDate).getD profile.absoluteSellPrice
    else profile.absoluteSellPrice
  let absoluteBuyPrice :=
    if doCalc ∧ profile.buyFormula ≠ "" then
      (evaluateFormula spot history fallbackParse profile.buyFormula
        (if profile.loadingDate ≠ "" then profile.loadingDate
         else profile.deliveryDate)).getD profile.absoluteBuyPrice
    else profile.absoluteBuyPrice
  let pricingEndDate :=
    if doCalc ∧ profile.pricingEndDate = "" ∧ profile.deliveryDate ≠ "" then
      est (if profile.sellFormula ≠ "" then profile.sellFormula
           else if profile.buyFormula ≠ "" then profile.buyFormula else "")
        profile.deliveryDate
    else profile.pricingEndDate
  let salesRevenue :=
    if profile.deliveredVolume ≠ 0 ∧ absoluteSellPrice ≠ 0 then
      profile.deliveredVolume * absoluteSellPrice
    else profile.salesRevenue
  let reconciledPurchaseCost :=
    if profile.loadedVolume ≠ 0 ∧ absoluteBuyPrice ≠ 0
        ∧ (profile.reconciledPurchaseCost = 0 ∨ ¬ isRealized
           ∨ forceCalc = true) then
      profile.loadedVolume * absoluteBuyPrice
    else profile.reconciledPurchaseCost
  let finalSalesRevenue :=
    if profile.finalSalesRevenue = 0 ∧ salesRevenue ≠ 0 then salesRevenue
    else profile.finalSalesRevenue
  let reconciledSalesRevenue :=
    if profile.reconciledSalesRevenue = 0 ∧ finalSalesRevenue ≠ 0 then
      finalSalesRevenue
    else profile.reconciledSalesRevenue
  let finalTotalCost :=
    if profile.finalTotalCost = 0 ∧ reconciledPurchaseCost ≠ 0 then
      reconciledPurchaseCost
    else profile.finalTotalCost
  let finalPhysicalPnL := finalSalesRevenue - finalTotalCost
  let finalTotalPnL := finalPhysicalPnL + profile.totalHedgingPnL
  { profile with
    absoluteSellPrice := absoluteSellPrice
    absoluteBuyPrice := absoluteBuyPrice
    pricingEndDate := pricingEndDate
    salesRevenue := salesRevenue
    reconciledPurchaseCost := reconciledPurchaseCost
    finalSalesRevenue := finalSalesRevenue
    reconciledSalesRevenue := reconciledSalesRevenue
    finalTotalCost := finalTotalCost
    finalPhysicalPnL := finalPhysicalPnL
    finalTotalPnL := finalTotalPnL }

/-- `actualizeProfile` (source lines 385-395). -/
def actualizeProfile (spot : Obj ℚ) (history : CurveHistory)
    (fallbackParse : String → String) (est : String → String → String)
    (profile : CargoProfile) : CargoProfile :=
  let p1 := { profile with pnlBucket := PnLBucket.Realized }
  let reconciledSalesRevenue :=
    if p1.reconciledSalesRevenue = 0 then p1.salesRevenue
    else p1.reconciledSalesRevenue
  let finalSalesRevenue :=
    if p1.finalSalesRevenue = 0 then reconciledSalesRevenue
    else p1.finalSalesRevenue
  let reconciledPurchaseCost :=
    if p1.reconciledPurchaseCost = 0 ∧ p1.loadedVolume ≠ 0
        ∧ p1.absoluteBuyPrice ≠ 0 then
      p1.loadedVolume * p1.absoluteBuyPrice
    else p1.reconciledPurchaseCost
  let finalTotalCost :=
    if p1.finalTotalCost = 0 then reconciledPurchaseCost
    else p1.finalTotalCost
  recalculateProfile spot history fallbackParse est
    { p1 with
      reconciledSalesRevenue := reconciledSalesRevenue
      finalSalesRevenue := finalSalesRevenue
      reconciledPurchaseCost := reconciledPurchaseCost
      finalTotalCost := finalTotalCost } false

/-! ## Helper lemmas: fields `recalculateProfile` never writes -/

section RecalcLemmas

variable (spot : Obj ℚ) (history : CurveHistory) (fb : String → String)
variable (est : String → String → String) (p : CargoProfile) (f : Bool)

theorem recalc_pnlBucket :
    (recalculateProfile spot history fb est p f).pnlBucket = p.pnlBucket := rfl

theorem recalc_sellFormula :
    (recalculateProfile spot history fb est p f).sellFormula = p.sellFormula := rfl

theorem recalc_buyFormula :
    (recalculateProfile spot history fb est p f).buyFormula = p.buyFormula := rfl

theorem recalc_deliveryDate :
    (recalculateProfile spot history fb est p f).deliveryDate = p.deliveryDate := rfl

theorem recalc_loadingDate :
    (recalculateProfile spot history fb est p f).loadingDate = p.loadingDate := rfl

theorem recalc_deliveredVolume :
    (recalculateProfile spot history fb est p f).deliveredVolume = p.deliveredVolume := rfl

theorem recalc_loadedVolume :
    (recalculateProfile spot history fb est p f).loadedVolume = p.loadedVolume := rfl

theorem recalc_totalHedgingPnL :
    (recalculateProfile spot history fb est p f).totalHedgingPnL = p.totalHedgingPnL := rfl

/-! ## Helper lemmas: the value of each field `recalculateProfile` writes -/

theorem recalc_absoluteSellPrice_eq :
    (recalculateProfile spot history fb est p f).absoluteSellPrice =
      if (¬ p.pnlBucket = PnLBucket.Realized ∨ f = true)
          ∧ p.sellFormula ≠ "" then
        (evaluateFormula spot history fb p.sellFormula
          p.deliveryDate).getD p.absoluteSellPrice
      else p.absoluteSellPrice := rfl

theorem recalc_absoluteBuyPrice_eq :
    (recalculateProfile spot history fb est p f).absoluteBuyPrice =
      if (¬ p.pnlBucket = PnLBucket.Realized ∨ f = true)
          ∧ p.buyFormula ≠ "" then
        (evaluateFormula spot history fb p.buyFormula
          (if p.loadingDate ≠ "" then p.loadingDate
           else p.deliveryDate)).getD p.absoluteBuyPrice
      else p.absoluteBuyPrice := rfl

theorem recalc_pricingEndDate_eq :
    (recalculateProfile spot history fb est p f).pricingEndDate =
      if (¬ p.pnlBucket = PnLBucket.Realized ∨ f = true)
          ∧ p.pricingEndDate = "" ∧ p.deliveryDate ≠ "" then
        est (if p.sellFormula ≠ "" then p.sellFormula
             else if p.buyFormula ≠ "" then p.buyFormula else "")
          p.deliveryDate
      else p.pricingEndDate := rfl

theorem recalc_salesRevenue_eq :
    (recalculateProfile spot history fb est p f).salesRevenue =
      if p.deliveredVolume ≠ 0
          ∧ (recalculateProfile spot history fb est p f).absoluteSellPrice ≠ 0 then
        p.deliveredVolume
          * (recalculateProfile spot history fb est p f).absoluteSellPrice
      else p.salesRevenue := rfl

theorem recalc_reconciledPurchaseCost_eq :
    (recalculateProfile spot history fb est p f).reconciledPurchaseCost =
      if p.loadedVolume ≠ 0
          ∧ (recalculateProfile spot history fb est p f).absoluteBuyPrice ≠ 0
          ∧ (p.reconciledPurchaseCost = 0
             ∨ ¬ p.pnlBucket = PnLBucket.Realized ∨ f = true) then
        p.loadedVolume
          * (recalculateProfile spot history fb est p f).absoluteBuyPrice
      else p.reconciledPurchaseCost := rfl

theorem recalc_finalSalesRevenue_eq :
    (recalculateProfile spot history fb est p f).finalSalesRevenue =
      if p.finalSalesRevenue = 0
          ∧ (recalculateProfile spot history fb est p f).salesRevenue ≠ 0 then
        (recalculateProfile spot history fb est p f).salesRevenue
      else p.finalSalesRevenue := rfl

theorem recalc_reconciledSalesRevenue_eq :
    (recalculateProfile spot history fb est p f).reconciledSalesRevenue =
      if p.reconciledSalesRevenue = 0
          ∧ (recalculateProfile spot history fb est p f).finalSalesRevenue ≠ 0 then
        (recalculateProfile spot history fb est p f).finalSalesRevenue
      else p.reconciledSalesRevenue := rfl

theorem recalc_finalTotalCost_eq :
    (recalculateProfile spot history fb est p f).finalTotalCost =
      if p.finalTotalCost = 0
          ∧ (recalculateProfile spot history fb est p f).reconciledPurchaseCost ≠ 0 then
        (recalculateProfile spot history fb est p f).reconciledPurchaseCost
      else p.finalTotalCost := rfl

theorem recalc_finalPhysicalPnL_eq :
    (recalculateProfile spot history fb est p f).finalPhysicalPnL =
      (recalculateProfile spot history fb est p f).finalSalesRevenue
        - (recalculateProfile spot history fb est p f).finalTotalCost := rfl

theorem recalc_finalTotalPnL_eq :
    (recalculateProfile spot history fb est p f).finalTotalPnL =
      (recalculateProfile spot history fb est p f).finalPhysicalPnL
        + p.totalHedgingPnL := rfl

end RecalcLemmas

/-! ## Claims about `recalculateProfile` -/

/-- Claim C1: for every cargo profile `p` and every `forceCalc` flag, the
profile returned by `recalculateProfile` satisfies
`finalTotalPnL = finalPhysicalPnL + totalHedgingPnL` and
`finalPhysicalPnL = finalSalesRevenue - finalTotalCost` exactly (an unset
field is `0`); recalculation never returns a profile violating either
equality. -/
theorem recalculateProfile_pnl_invariant (spot : Obj ℚ)
    (history : CurveHistory) (fb : String → String)
    (est : String → String → String) (p : CargoProfile) (forceCalc : Bool) :
    (recalculateProfile spot history fb est p forceCalc).finalTotalPnL
        = (recalculateProfile spot history fb est p forceCalc).finalPhysicalPnL
          + (recalculateProfile spot history fb est p forceCalc).totalHedgingPnL
      ∧ (recalculateProfile spot history fb est p forceCalc).finalPhysicalPnL
        = (recalculateProfile spot history fb est p forceCalc).finalSalesRevenue
          - (recalculateProfile spot history fb est p forceCalc).finalTotalCost :=
  ⟨rfl, rfl⟩

/-- Claim C3: for a profile with `pnlBucket = Realized` and
`forceCalc = false`, recalculation leaves `absoluteSellPrice`,
`absoluteBuyPrice` and `reconciledPurchaseCost` unchanged whenever they are
already set (non-zero), for every state of the market store and forward
curves. -/
theorem recalculateProfile_realized_freeze (spot : Obj ℚ)
    (history : CurveHistory) (fb : String → String)
    (est : String → String → String) (p : CargoProfile)
    (hreal : p.pnlBucket = PnLBucket.Realized) :
    (p.absoluteSellPrice ≠ 0 →
      (recalculateProfile spot history fb est p false).absoluteSellPrice
        = p.absoluteSellPrice)
    ∧ (p.absoluteBuyPrice ≠ 0 →
        (recalculateProfile spot history fb est p false).absoluteBuyPrice
          = p.absoluteBuyPrice)
    ∧ (p.reconciledPurchaseCost ≠ 0 →
        (recalculateProfile spot history fb est p false).reconciledPurchaseCost
          = p.reconciledPurchaseCost) := by
  refine ⟨fun _ => ?_, fun _ => ?_, fun hrpc => ?_⟩
  · rw [recalc_absoluteSellPrice_eq, if_neg]
    rintro ⟨hd, -⟩
    rcases hd with hd | hd
    · exact hd hreal
    · simp at hd
  · rw [recalc_absoluteBuyPrice_eq, if_neg]
    rintro ⟨hd, -⟩
    rcases hd with hd | hd
    · exact hd hreal
    · simp at hd
  · rw [recalc_reconciledPurchaseCost_eq, if_neg]
    rintro ⟨-, -, hd⟩
    rcases hd with hd | hd | hd
    · exact hrpc hd
    · exact hd hreal
    · simp at hd

/-- Witness for C3 at a concrete realized profile with every price field
set. -/
theorem recalculateProfile_realized_freeze_witness :
    (recalculateProfile LIVE_MARKET_DATA [] (fun _ => "") (fun _ _ => "")
        { id := "1", source := "", strategyName := "", buyer := "",
          optimized := false, deliveryDate := "2025-08-25",
          deliveryMonth := "", deliveredVolume := 100,
          sellFormula := "TTF + 1", absoluteSellPrice := 9,
          salesRevenue := 0, loadedVolume := 100,
          loadingDate := "2025-08-01", loadingMonth := "",
          buyFormula := "TTF - 1", absoluteBuyPrice := 7, incoterms := "",
          src := "", pnlBucket := PnLBucket.Realized,
          reconciledPurchaseCost := 650, finalSalesRevenue := 0,
          reconciledSalesRevenue := 0, finalTotalCost := 0,
          finalPhysicalPnL := 0, totalHedgingPnL := 0, finalTotalPnL := 0,
          pricingEndDate := "", volumeUnit := "" }
        false).absoluteSellPrice = 9 :=
  (recalculateProfile_realized_freeze LIVE_MARKET_DATA [] (fun _ => "")
      (fun _ _ => "") _ rfl).1 (by norm_num)

/-- Claim C4: whenever `evaluateFormula` on `sellFormula` (against
`deliveryDate`), or on `buyFormula` (against `loadingDate`, falling back to
`deliveryDate`), returns the no-price sentinel `none`, the corresponding
absolute price field of the result equals its value in the input profile —
it is never overwritten with a null or zero price. -/
theorem recalculateProfile_failure_keeps_price (spot : Obj ℚ)
    (history : CurveHistory) (fb : String → String)
    (est : String → String → String) (p : CargoProfile) (forceCalc : Bool) :
    (evaluateFormula spot history fb p.sellFormula p.deliveryDate = none →
      (recalculateProfile spot history fb est p forceCalc).absoluteSellPrice
        = p.absoluteSellPrice)
    ∧ (evaluateFormula spot history fb p.buyFormula
          (if p.loadingDate ≠ "" then p.loadingDate else p.deliveryDate)
            = none →
        (recalculateProfile spot history fb est p forceCalc).absoluteBuyPrice
          = p.absoluteBuyPrice) := by
  constructor
  · intro hnone
    rw [recalc_absoluteSellPrice_eq, hnone]
    split <;> rfl
  · intro hnone
    rw [recalc_absoluteBuyPrice_eq, hnone]
    split <;> rfl

/-- Witness for C4 at a concrete profile whose formulas have no derivable
price (both evaluations return `none`). -/
theorem recalculateProfile_failure_keeps_price_witness :
    (recalculateProfile LIVE_MARKET_DATA [] (fun _ => "") (fun _ _ => "")
        { id := "2", source := "", strategyName := "", buyer := "",
          optimized := false, deliveryDate := "2025-08-25",
          deliveryMonth := "", deliveredVolume := 100,
          sellFormula := "Alpha + Beta", absoluteSellPrice := 9,
          salesRevenue := 0, loadedVolume := 0, loadingDate := "",
          loadingMonth := "", buyFormula := "", absoluteBuyPrice := 7,
          incoterms := "", src := "", pnlBucket := PnLBucket.Unrealized,
          reconciledPurchaseCost := 0, finalSalesRevenue := 0,
          reconciledSalesRevenue := 0, finalTotalCost := 0,
          finalPhysicalPnL := 0, totalHedgingPnL := 0, finalTotalPnL := 0,
          pricingEndDate := "", volumeUnit := "" }
        false).absoluteSellPrice = 9 :=
  (recalculateProfile_failure_keeps_price LIVE_MARKET_DATA [] (fun _ => "")
      (fun _ _ => "") _ false).1 (by decide)

/-- Claim C10: `recalculateProfile` modifies at most the derived fields
`absoluteSellPrice`, `absoluteBuyPrice`, `pricingEndDate`, `salesRevenue`,
`reconciledPurchaseCost`, `finalSalesRevenue`, `reconciledSalesRevenue`,
`finalTotalCost`, `finalPhysicalPnL`, `finalTotalPnL`; every other field is
returned unchanged.  Moreover it may set `pricingEndDate` (from the pricing
date estimator) when that field is unset, the delivery date is present, and
price derivation runs. -/
theorem recalculateProfile_frame (spot : Obj ℚ) (history : CurveHistory)
    (fb : String → String) (est : String → String → String)
    (p : CargoProfile) (forceCalc : Bool) :
    (recalculateProfile spot history fb est p forceCalc).id = p.id
    ∧ (recalculateProfile spot history fb est p forceCalc).source = p.source
    ∧ (recalculateProfile spot history fb est p forceCalc).strategyName
        = p.strategyName
    ∧ (recalculateProfile spot history fb est p forceCalc).buyer = p.buyer
    ∧ (recalculateProfile spot history fb est p forceCalc).optimized
        = p.optimized
    ∧ (recalculateProfile spot history fb est p forceCalc).deliveryDate
        = p.deliveryDate
    ∧ (recalculateProfile spot history fb est p forceCalc).deliveryMonth
        = p.deliveryMonth
    ∧ (recalculateProfile spot history fb est p forceCalc).deliveredVolume
        = p.deliveredVolume
    ∧ (recalculateProfile spot history fb est p forceCalc).sellFormula
        = p.sellFormula
    ∧ (recalculateProfile spot history fb est p forceCalc).loadedVolume
        = p.loadedVolume
    ∧ (recalculateProfile spot history fb est p forceCalc).loadingDate
        = p.loadingDate
    ∧ (recalculateProfile spot history fb est p forceCalc).loadingMonth
        = p.loadingMonth
    ∧ (recalculateProfile spot history fb est p forceCalc).buyFormula
        = p.buyFormula
    ∧ (recalculateProfile spot history fb est p forceCalc).incoterms
        = p.incoterms
    ∧ (recalculateProfile spot history fb est p forceCalc).src = p.src
    ∧ (recalculateProfile spot history fb est p forceCalc).pnlBucket
        = p.pnlBucket
    ∧ (recalculateProfile spot history fb est p forceCalc).totalHedgingPnL
        = p.totalHedgingPnL
    ∧ (recalculateProfile spot history fb est p forceCalc).volumeUnit
        = p.volumeUnit
    ∧ ((¬ p.pnlBucket = PnLBucket.Realized ∨ forceCalc = true) →
        p.pricingEndDate = "" → p.deliveryDate ≠ "" →
        (recalculateProfile spot history fb est p forceCalc).pricingEndDate
          = est (if p.sellFormula ≠ "" then p.sellFormula
                 else if p.buyFormula ≠ "" then p.buyFormula else "")
              p.deliveryDate) := by
  refine ⟨rfl, rfl, rfl, rfl, rfl, rfl, rfl, rfl, rfl, rfl, rfl, rfl, rfl,
    rfl, rfl, rfl, rfl, rfl, fun hdo hped hdd => ?_⟩
  rw [recalc_pricingEndDate_eq, if_pos ⟨hdo, hped, hdd⟩]

/-- Witness for C10: the pricing-end-date write at a concrete unrealized
profile. -/
theorem recalculateProfile_frame_witness :
    (recalculateProfile LIVE_MARKET_DATA [] (fun _ => "")
        (fun _ d => "est:" ++ d)
        { id := "3", source := "", strategyName := "", buyer := "",
          optimized := false, deliveryDate := "2025-08-25",
          deliveryMonth := "", deliveredVolume := 0, sellFormula := "TTF",
          absoluteSellPrice := 0, salesRevenue := 0, loadedVolume := 0,
          loadingDate := "", loadingMonth := "", buyFormula := "",
          absoluteBuyPrice := 0, incoterms := "", src := "",
          pnlBucket := PnLBucket.Unrealized, reconciledPurchaseCost := 0,
          finalSalesRevenue := 0, reconciledSalesRevenue := 0,
          finalTotalCost := 0, finalPhysicalPnL := 0, totalHedgingPnL := 0,
          finalTotalPnL := 0, pricingEndDate := "", volumeUnit := "" }
        false).pricingEndDate = "est:2025-08-25" := by
  have h := (recalculateProfile_frame LIVE_MARKET_DATA [] (fun _ => "")
    (fun _ d => "est:" ++ d)
    { id := "3", source := "", strategyName := "", buyer := "",
      optimized := false, deliveryDate := "2025-08-25",
      deliveryMonth := "", deliveredVolume := 0, sellFormula := "TTF",
      absoluteSellPrice := 0, salesRevenue := 0, loadedVolume := 0,
      loadingDate := "", loadingMonth := "", buyFormula := "",
      absoluteBuyPrice := 0, incoterms := "", src := "",
      pnlBucket := PnLBucket.Unrealized, reconciledPurchaseCost := 0,
      finalSalesRevenue := 0, reconciledSalesRevenue := 0,
      finalTotalCost := 0, finalPhysicalPnL := 0, totalHedgingPnL := 0,
      finalTotalPnL := 0, pricingEndDate := "", volumeUnit := "" }
    false).2.2.2.2.2.2.2.2.2.2.2.2.2.2.2.2.2.2
  rw [h (by left; simp) rfl (by decide)]
  rfl

/-! ## Claims about `evaluateFormula`

The concrete computations below are settled by kernel evaluation of the
embedded pipeline; the `Rat` primitives (irreducible by default, purely so
that `simp` does not unfold them) are made semireducible locally. -/

section FormulaClaims

attribute [local semireducible] Rat.ofScientific Rat.mul Rat.add Rat.sub
  Rat.inv

/-- When there is no forward-curve row for the reference month, the pricing
context is just the spot store (the transparent fallback of source lines
235-244). -/
theorem evaluateFormulaAgainst_of_find_none (spot : Obj ℚ)
    (curve : List ForwardCurveRow) (fb : String → String) (f d : String)
    (h : curve.find? (fun r => r.month = normalizeDateToMonth fb d) = none) :
    evaluateFormulaAgainst spot curve fb f d =
      if f.toList.all isSpaceC then none
      else normalizeAndEval spot (f.toList.map jsToLower) := by
  unfold evaluateFormulaAgainst
  by_cases hd : d = ""
  · simp [hd]
  · by_cases hc : curve = []
    · simp [hd, hc]
    · simp [hd, hc, h]

/-- With an absent (empty) reference date the curve is never consulted and
the pricing context is the spot store. -/
theorem evaluateFormulaAgainst_no_refdate (spot : Obj ℚ)
    (curve : List ForwardCurveRow) (fb : String → String) (f : String) :
    evaluateFormulaAgainst spot curve fb f "" =
      if f.toList.all isSpaceC then none
      else normalizeAndEval spot (f.toList.map jsToLower) := by
  unfold evaluateFormulaAgainst
  simp

/-- When a forward-curve row for the reference month is found, its prices
are overlaid on the spot store. -/
theorem evaluateFormulaAgainst_of_find_some (spot : Obj ℚ)
    (curve : List ForwardCurveRow) (fb : String → String) (f d : String)
    (row : ForwardCurveRow) (hd : d ≠ "") (hc : curve ≠ [])
    (h : curve.find? (fun r => r.month = normalizeDateToMonth fb d)
          = some row) :
    evaluateFormulaAgainst spot curve fb f d =
      if f.toList.all isSpaceC then none
      else normalizeAndEval (objMerge spot row.prices)
             (f.toList.map jsToLower) := by
  unfold evaluateFormulaAgainst
  simp [hd, hc, h]

/-- A curve history holding one snapshot whose `"2025-08"` row carries
`TTF = 14.50`, as in the forward-curve-override test of the spec. -/
def C5_HISTORY : CurveHistory :=
  saveForwardCurve [] "2025-07-15" [⟨"2025-08", [("TTF", 14.5)]⟩]

/-- Claim C5: with spot `TTF = 12.00` and a consulted forward curve whose
`"2025-08"` row has `TTF = 14.50`, `evaluateFormula "TTF - 0.50"` at
reference date `"2025-08-25"` yields `14.000`; and for any reference date
whose month has no row in the curve it falls back transparently to the
spot-only context and yields `11.500`, with no error raised (quantified over
every host date-parsing fallback). -/
theorem evaluateFormula_forward_override :
    (∀ fb : String → String,
      evaluateFormula LIVE_MARKET_DATA C5_HISTORY fb "TTF - 0.50"
          "2025-08-25" = some (14.000 : ℚ))
    ∧ ∀ (fb : String → String) (d : String),
        (getForwardCurve C5_HISTORY none).find?
            (fun r => r.month = normalizeDateToMonth fb d) = none →
        evaluateFormula LIVE_MARKET_DATA C5_HISTORY fb "TTF - 0.50" d
          = some (11.500 : ℚ) := by
  constructor
  · intro fb
    show evaluateFormulaAgainst _ _ _ _ _ = _
    rw [evaluateFormulaAgainst_of_find_some LIVE_MARKET_DATA
      (getForwardCurve C5_HISTORY none) fb "TTF - 0.50" "2025-08-25"
      ⟨"2025-08", [("TTF", 14.5)]⟩ (by decide) (by decide) rfl]
    decide
  · intro fb d h
    show evaluateFormulaAgainst _ _ _ _ _ = _
    rw [evaluateFormulaAgainst_of_find_none _ _ _ _ _ h]
    decide

/-- Witness for C5 at the concrete absent month `"2025-09-25"`. -/
theorem evaluateFormula_forward_override_witness :
    evaluateFormula LIVE_MARKET_DATA C5_HISTORY (fun _ => "") "TTF - 0.50"
        "2025-09-25" = some (11.500 : ℚ) :=
  evaluateFormula_forward_override.2 (fun _ => "") "2025-09-25" (by decide)

/-- Claim C6: with `HH = 3.00` in the pricing context (spot updated via
`updateMarketData`, empty curve history, any reference date),
`evaluateFormula "HH + 20%"` returns `3.600`: the trailing `+ 20%` is
rewritten to multiplication by `1.2` before index substitution, and the
result is rounded to 3 decimals. -/
theorem evaluateFormula_percentage_rewrite (fb : String → String)
    (refDate : String) :
    evaluateFormula (updateMarketData LIVE_MARKET_DATA [("HH", 3)]) []
        fb "HH + 20%" refDate = some (3.600 : ℚ) := by
  show evaluateFormulaAgainst _ _ _ _ _ = _
  rw [evaluateFormulaAgainst_of_find_none
    (updateMarketData LIVE_MARKET_DATA [("HH", 3)]) (getForwardCurve [] none)
    fb "HH + 20%" refDate rfl]
  decide

/-- Claim C8: `evaluateFormula "Alpha + Beta"` (no reference date, any curve
history) returns the no-price sentinel `none`: alphabetic tokens matching no
alias and no market index are stripped, the residue evaluates to nothing,
and the result is neither an exception (the model is total) nor `0`. -/
theorem evaluateFormula_unknown_tokens_none (history : CurveHistory)
    (fb : String → String) :
    evaluateFormula LIVE_MARKET_DATA history fb "Alpha + Beta" "" = none := by
  show evaluateFormulaAgainst _ _ _ _ _ = _
  rw [evaluateFormulaAgainst_no_refdate]
  decide

end FormulaClaims

/-! ## Claim about `normalizeDateToMonth` -/

/-- Strict ISO `YYYY-MM-DD` shape, as a decidable test. -/
def isStrictISODate (s : String) : Bool :=
  match s.toList with
  | [y1, y2, y3, y4, h1, m1, m2, h2, d1, d2] =>
    y1.isDigit && y2.isDigit && y3.isDigit && y4.isDigit && h1 = '-'
      && m1.isDigit && m2.isDigit && h2 = '-' && d1.isDigit && d2.isDigit
  | _ => false

/-- Claim C9: for every reference date string in strict `YYYY-MM-DD` form,
the month key equals exactly the first 7 characters of the string, computed
by slicing — the host date parser (`fallbackParse`, which carries any time
zone dependence) is never consulted, for any behaviour of that parser. -/
theorem normalizeDateToMonth_iso_slice (fb : String → String) (s : String)
    (h : isStrictISODate s = true) :
    normalizeDateToMonth fb s = String.mk (s.toList.take 7) := by
  obtain ⟨data⟩ := s
  unfold isStrictISODate at h
  unfold normalizeDateToMonth
  match data, h with
  | [y1, y2, y3, y4, h1, m1, m2, h2, d1, d2], h =>
    simp only [String.toList] at h ⊢
    simp only [Bool.and_eq_true, decide_eq_true_eq] at h
    obtain ⟨⟨⟨⟨⟨⟨⟨⟨⟨hy1, hy2⟩, hy3⟩, hy4⟩, hh1⟩, hm1⟩, hm2⟩, hh2⟩, hd1⟩, hd2⟩ := h
    rw [if_neg (by simp [String.ext_iff])]
    rw [if_pos ⟨hy1, hy2, hy3, hy4, hh1, hm1, hm2⟩]
    subst hh1
    rfl

/-- Witness for C9 at the concrete date `"2025-11-01"`. -/
theorem normalizeDateToMonth_iso_slice_witness :
    normalizeDateToMonth (fun _ => "1999-01") "2025-11-01"
      = String.mk ("2025-11-01".toList.take 7) :=
  normalizeDateToMonth_iso_slice (fun _ => "1999-01") "2025-11-01" (by decide)

/-! ## Claim about `getForwardCurve` and the consulted snapshot -/

theorem charListLe_refl (x : List Char) : charListLe x x = true := by
  induction x with
  | nil => rfl
  | cons a as ih => simp [charListLe, ih]

theorem charListLe_trans :
    ∀ (x y z : List Char), charListLe x y = true → charListLe y z = true →
      charListLe x z = true
  | [], _, _, _, _ => rfl
  | _ :: _, [], _, h1, _ => by simp [charListLe] at h1
  | _ :: _, _ :: _, [], _, h2 => by simp [charListLe] at h2
  | a :: as, b :: bs, c :: cs, h1, h2 => by
    rw [charListLe] at h1 h2 ⊢
    by_cases hab : a < b
    · by_cases hbc : b < c
      · rw [if_pos (hab.trans hbc)]
      · by_cases hcb : c < b
        · rw [if_neg hbc, if_pos hcb] at h2
          exact absurd h2 (by simp)
        · have hbceq : b = c := le_antisymm (not_lt.mp hcb) (not_lt.mp hbc)
          rw [if_pos (hbceq ▸ hab)]
    · by_cases hba : b < a
      · rw [if_neg hab, if_pos hba] at h1
        exact absurd h1 (by simp)
      · have habeq : a = b := le_antisymm (not_lt.mp hba) (not_lt.mp hab)
        rw [if_neg hab, if_neg hba] at h1
        subst habeq
        by_cases hac : a < c
        · rw [if_pos hac]
        · by_cases hca : c < a
          · rw [if_neg hac, if_pos hca] at h2
            exact absurd h2 (by simp)
          · rw [if_neg hac, if_neg hca] at h2 ⊢
            exact charListLe_trans as bs cs h1 h2

theorem charListLe_total :
    ∀ (x y : List Char), charListLe x y = true ∨ charListLe y x = true
  | [], _ => Or.inl rfl
  | _ :: _, [] => Or.inr rfl
  | a :: as, b :: bs => by
    rw [charListLe, charListLe]
    rcases lt_trichotomy a b with hab | hab | hab
    · left
      rw [if_pos hab]
    · subst hab
      simp only [lt_irrefl, if_neg, if_false]
      exact charListLe_total as bs
    · right
      rw [if_pos hab]

instance : IsTrans String (fun a b : String => jsStrLe a b = true) :=
  ⟨fun a b c => charListLe_trans a.toList b.toList c.toList⟩

instance : IsTotal String (fun a b : String => jsStrLe a b = true) :=
  ⟨fun a b => charListLe_total a.toList b.toList⟩

/-- In a `jsStrLe`-sorted list every element is bounded by a final appended
element. -/
theorem sorted_le_append_singleton (l : List String) (d x : String)
    (hs : (l ++ [d]).Sorted (fun a b : String => jsStrLe a b = true))
    (hx : x ∈ l ++ [d]) : jsStrLe x d = true := by
  induction l with
  | nil =>
    rw [List.nil_append, List.mem_singleton] at hx
    subst hx
    exact charListLe_refl x.toList
  | cons a t ih =>
    rw [List.cons_append, List.sorted_cons] at hs
    rcases List.mem_cons.mp hx with rfl | hx2
    · exact hs.1 d (by simp)
    · exact ih hs.2 hx2

/-- The snapshot `saveForwardCurve` stored most recently, at a date earlier
than an existing key, is NOT what `getForwardCurve` with no argument
returns: saving the empty snapshot under `"2025-01-01"` after a non-empty
snapshot under `"2025-02-01"` still yields the `"2025-02-01"` snapshot.
This refutes claim C7 as stated (`getForwardCurve()` returns the snapshot
saved last). -/
theorem getForwardCurve_not_last_saved :
    getForwardCurve
        (saveForwardCurve
          (saveForwardCurve [] "2025-02-01" [⟨"2025-08", [("TTF", 29/2)]⟩])
          "2025-01-01" [])
        none
      ≠ [] := by decide

/-- Claim C7 as amended: `getForwardCurve()` with no argument returns the
snapshot stored under the lexicographically greatest as-of date key (the
latest date, which need not be the most recently saved snapshot), and
`evaluateFormula` takes its forward prices from exactly that snapshot. -/
theorem getForwardCurve_latest_key (history : CurveHistory) :
    (history ≠ [] →
      ∃ d, d ∈ history.map Prod.fst
        ∧ (∀ d2 ∈ history.map Prod.fst, jsStrLe d2 d = true)
        ∧ getForwardCurve history none = (List.lookup d history).getD [])
    ∧ ∀ (spot : Obj ℚ) (fb : String → String) (f rd : String),
        evaluateFormula spot history fb f rd
          = evaluateFormulaAgainst spot (getForwardCurve history none) fb
              f rd := by
  refine ⟨fun hne => ?_, fun _ _ _ _ => rfl⟩
  have hksne : history.map Prod.fst ≠ [] := by
    simpa using hne
  have hperm := List.perm_insertionSort
    (fun a b : String => jsStrLe a b = true) (history.map Prod.fst)
  have hsne : List.insertionSort (fun a b : String => jsStrLe a b = true)
      (history.map Prod.fst) ≠ [] := by
    intro h0
    rw [h0] at hperm
    exact hksne hperm.symm.eq_nil
  obtain ⟨d, rest, hrev⟩ : ∃ d rest,
      (List.insertionSort (fun a b : String => jsStrLe a b = true)
        (history.map Prod.fst)).reverse = d :: rest := by
    cases hr : (List.insertionSort (fun a b : String => jsStrLe a b = true)
        (history.map Prod.fst)).reverse with
    | nil => exact absurd (by simpa using congrArg List.reverse hr) hsne
    | cons x xs => exact ⟨x, xs, rfl⟩
  have hs : List.insertionSort (fun a b : String => jsStrLe a b = true)
      (history.map Prod.fst) = rest.reverse ++ [d] := by
    rw [List.reverse_eq_iff] at hrev
    rw [hrev, List.reverse_cons]
  have hsorted := List.sorted_insertionSort
    (fun a b : String => jsStrLe a b = true) (history.map Prod.fst)
  rw [hs] at hsorted
  refine ⟨d, ?_, ?_, ?_⟩
  · exact hperm.mem_iff.mp (by rw [hs]; simp)
  · intro d2 hd2
    exact sorted_le_append_singleton rest.reverse d d2 hsorted
      (by rw [← hs]; exact hperm.mem_iff.mpr hd2)
  · show getForwardCurve history none = _
    unfold getForwardCurve
    rw [hrev]

/-- Claim C2: `recalculateProfile` is idempotent — with the market data
store and forward-curve history (and the host date functions) unchanged
between the calls, recalculating an already-recalculated profile returns it
unchanged, field for field. -/
theorem recalculateProfile_idempotent (spot : Obj ℚ)
    (history : CurveHistory) (fb : String → String)
    (est : String → String → String) (p : CargoProfile) (f : Bool) :
    recalculateProfile spot history fb est
        (recalculateProfile spot history fb est p f) f
      = recalculateProfile spot history fb est p f := by
  have e1 : (recalculateProfile spot history fb est
      (recalculateProfile spot history fb est p f) f).absoluteSellPrice
      = (recalculateProfile spot history fb est p f).absoluteSellPrice := by
    rw [recalc_absoluteSellPrice_eq spot history fb est
          (recalculateProfile spot history fb est p f) f,
        recalc_pnlBucket spot history fb est p f,
        recalc_sellFormula spot history fb est p f,
        recalc_deliveryDate spot history fb est p f]
    by_cases hc : (¬ p.pnlBucket = PnLBucket.Realized ∨ f = true)
        ∧ p.sellFormula ≠ ""
    · rw [if_pos hc, recalc_absoluteSellPrice_eq spot history fb est p f,
          if_pos hc]
      cases evaluateFormula spot history fb p.sellFormula p.deliveryDate
        <;> rfl
    · rw [if_neg hc]
  have e2 : (recalculateProfile spot history fb est
      (recalculateProfile spot history fb est p f) f).absoluteBuyPrice
      = (recalculateProfile spot history fb est p f).absoluteBuyPrice := by
    rw [recalc_absoluteBuyPrice_eq spot history fb est
          (recalculateProfile spot history fb est p f) f,
        recalc_pnlBucket spot history fb est p f,
        recalc_buyFormula spot history fb est p f,
        recalc_loadingDate spot history fb est p f,
        recalc_deliveryDate spot history fb est p f]
    by_cases hc : (¬ p.pnlBucket = PnLBucket.Realized ∨ f = true)
        ∧ p.buyFormula ≠ ""
    · rw [if_pos hc, recalc_absoluteBuyPrice_eq spot history fb est p f,
          if_pos hc]
      cases evaluateFormula spot history fb p.buyFormula
          (if p.loadingDate ≠ "" then p.loadingDate else p.deliveryDate)
        <;> rfl
    · rw [if_neg hc]
  have e3 : (recalculateProfile spot history fb est
      (recalculateProfile spot history fb est p f) f).pricingEndDate
      = (recalculateProfile spot history fb est p f).pricingEndDate := by
    rw [recalc_pricingEndDate_eq spot history fb est
          (recalculateProfile spot history fb est p f) f,
        recalc_pnlBucket spot history fb est p f,
        recalc_deliveryDate spot history fb est p f,
        recalc_sellFormula spot history fb est p f,
        recalc_buyFormula spot history fb est p f]
    by_cases hc : (¬ p.pnlBucket = PnLBucket.Realized ∨ f = true)
        ∧ (recalculateProfile spot history fb est p f).pricingEndDate = ""
        ∧ p.deliveryDate ≠ ""
    · rw [if_pos hc]
      obtain ⟨hdo, hped, hdd⟩ := hc
      rw [recalc_pricingEndDate_eq spot history fb est p f] at hped ⊢
      by_cases hc1 : (¬ p.pnlBucket = PnLBucket.Realized ∨ f = true)
          ∧ p.pricingEndDate = "" ∧ p.deliveryDate ≠ ""
      · rw [if_pos hc1]
      · rw [if_neg hc1] at hped ⊢
        exact absurd ⟨hdo, hped, hdd⟩ hc1
    · rw [if_neg hc]
  have e4 : (recalculateProfile spot history fb est
      (recalculateProfile spot history fb est p f) f).salesRevenue
      = (recalculateProfile spot history fb est p f).salesRevenue := by
    rw [recalc_salesRevenue_eq spot history fb est
          (recalculateProfile spot history fb est p f) f,
        recalc_deliveredVolume spot history fb est p f, e1]
    by_cases hc : p.deliveredVolume ≠ 0
        ∧ (recalculateProfile spot history fb est p f).absoluteSellPrice ≠ 0
    · rw [if_pos hc, recalc_salesRevenue_eq spot history fb est p f,
          if_pos hc]
    · rw [if_neg hc]
  have e5 : (recalculateProfile spot history fb est
      (recalculateProfile spot history fb est p f) f).reconciledPurchaseCost
      = (recalculateProfile spot history fb est p f).reconciledPurchaseCost := by
    rw [recalc_reconciledPurchaseCost_eq spot history fb est
          (recalculateProfile spot history fb est p f) f,
        recalc_loadedVolume spot history fb est p f, e2,
        recalc_pnlBucket spot history fb est p f]
    by_cases hc : p.loadedVolume ≠ 0
        ∧ (recalculateProfile spot history fb est p f).absoluteBuyPrice ≠ 0
        ∧ ((recalculateProfile spot history fb est p f).reconciledPurchaseCost
              = 0
           ∨ ¬ p.pnlBucket = PnLBucket.Realized ∨ f = true)
    · rw [if_pos hc]
      obtain ⟨hlv, habp, hdis⟩ := hc
      rw [recalc_reconciledPurchaseCost_eq spot history fb est p f]
        at hdis ⊢
      by_cases hc1 : p.loadedVolume ≠ 0
          ∧ (recalculateProfile spot history fb est p f).absoluteBuyPrice ≠ 0
          ∧ (p.reconciledPurchaseCost = 0
             ∨ ¬ p.pnlBucket = PnLBucket.Realized ∨ f = true)
      · rw [if_pos hc1]
      · rw [if_neg hc1] at hdis ⊢
        exact absurd ⟨hlv, habp, hdis⟩ hc1
    · rw [if_neg hc]
  have e6 : (recalculateProfile spot history fb est
      (recalculateProfile spot history fb est p f) f).finalSalesRevenue
      = (recalculateProfile spot history fb est p f).finalSalesRevenue := by
    rw [recalc_finalSalesRevenue_eq spot history fb est
          (recalculateProfile spot history fb est p f) f, e4]
    by_cases hc : (recalculateProfile spot history fb est p f).finalSalesRevenue
          = 0
        ∧ (recalculateProfile spot history fb est p f).salesRevenue ≠ 0
    · rw [if_pos hc]
      obtain ⟨hfsr, hsr⟩ := hc
      rw [recalc_finalSalesRevenue_eq spot history fb est p f] at hfsr ⊢
      by_cases hc1 : p.finalSalesRevenue = 0
          ∧ (recalculateProfile spot history fb est p f).salesRevenue ≠ 0
      · rw [if_pos hc1]
      · rw [if_neg hc1] at hfsr ⊢
        exact absurd ⟨hfsr, hsr⟩ hc1
    · rw [if_neg hc]
  have e7 : (recalculateProfile spot history fb est
      (recalculateProfile spot history fb est p f) f).reconciledSalesRevenue
      = (recalculateProfile spot history fb est p f).reconciledSalesRevenue := by
    rw [recalc_reconciledSalesRevenue_eq spot history fb est
          (recalculateProfile spot history fb est p f) f, e6]
    by_cases hc : (recalculateProfile spot history fb est
            p f).reconciledSalesRevenue = 0
        ∧ (recalculateProfile spot history fb est p f).finalSalesRevenue ≠ 0
    · rw [if_pos hc]
      obtain ⟨hrsr, hfsr⟩ := hc
      rw [recalc_reconciledSalesRevenue_eq spot history fb est p f]
        at hrsr ⊢
      by_cases hc1 : p.reconciledSalesRevenue = 0
          ∧ (recalculateProfile spot history fb est p f).finalSalesRevenue ≠ 0
      · rw [if_pos hc1]
      · rw [if_neg hc1] at hrsr ⊢
        exact absurd ⟨hrsr, hfsr⟩ hc1
    · rw [if_neg hc]
  have e8 : (recalculateProfile spot history fb est
      (recalculateProfile spot history fb est p f) f).finalTotalCost
      = (recalculateProfile spot history fb est p f).finalTotalCost := by
    rw [recalc_finalTotalCost_eq spot history fb est
          (recalculateProfile spot history fb est p f) f, e5]
    by_cases hc : (recalculateProfile spot history fb est p f).finalTotalCost
          = 0
        ∧ (recalculateProfile spot history fb est
            p f).reconciledPurchaseCost ≠ 0
    · rw [if_pos hc]
      obtain ⟨hftc, hrpc⟩ := hc
      rw [recalc_finalTotalCost_eq spot history fb est p f] at hftc ⊢
      by_cases hc1 : p.finalTotalCost = 0
          ∧ (recalculateProfile spot history fb est
              p f).reconciledPurchaseCost ≠ 0
      · rw [if_pos hc1]
      · rw [if_neg hc1] at hftc ⊢
        exact absurd ⟨hftc, hrpc⟩ hc1
    · rw [if_neg hc]
  have e9 : (recalculateProfile spot history fb est
      (recalculateProfile spot history fb est p f) f).finalPhysicalPnL
      = (recalculateProfile spot history fb est p f).finalPhysicalPnL := by
    rw [recalc_finalPhysicalPnL_eq spot history fb est
          (recalculateProfile spot history fb est p f) f, e6, e8,
        ← recalc_finalPhysicalPnL_eq spot history fb est p f]
  have e10 : (recalculateProfile spot history fb est
      (recalculateProfile spot history fb est p f) f).finalTotalPnL
      = (recalculateProfile spot history fb est p f).finalTotalPnL := by
    rw [recalc_finalTotalPnL_eq spot history fb est
          (recalculateProfile spot history fb est p f) f, e9,
        recalc_totalHedgingPnL spot history fb est p f,
        ← recalc_finalTotalPnL_eq spot history fb est p f]
  apply CargoProfile.ext <;> first | assumption | rfl

/-- Witness for the amended C7 at a one-snapshot history. -/
theorem getForwardCurve_latest_key_witness :
    ∃ d, d ∈ (saveForwardCurve [] "2025-01-01" []).map Prod.fst
      ∧ (∀ d2 ∈ (saveForwardCurve [] "2025-01-01" []).map Prod.fst,
          jsStrLe d2 d = true)
      ∧ getForwardCurve (saveForwardCurve [] "2025-01-01" []) none
          = (List.lookup d (saveForwardCurve [] "2025-01-01" [])).getD [] :=
  (getForwardCurve_latest_key (saveForwardCurve [] "2025-01-01" [])).1
    (by decide)

end CargoFlow
